import Mathlib

/-!
Verification of `app/src/lib/git/checkout.ts` (branch/paths checkout logic).

The TypeScript source is shallowly embedded below.  External collaborators
(the process executor `git`, the network-argument builder
`gitNetworkArguments`, the feature flag `enableRecurseSubmodulesFlag`, the
submodule updater `initAndUpdateSubmodules`, and the outputs of
`CheckoutProgressParser`) are supplied as parameters in a `CheckoutEnv`
record, so a single deterministic Lean function captures one execution of
`checkoutBranch` as a trace of observable events plus a final result.
-/

namespace Checkout

/-- `BranchType` from `models/branch`: a branch is local or remote-tracking. -/
inductive BranchType where
  | Local
  | Remote
  deriving DecidableEq, Repr

/-- The fields of `Branch` used by `checkout.ts`. -/
structure Branch where
  name : String
  type : BranchType
  nameWithoutRemote : String
  deriving DecidableEq, Repr

/-- The field of `Repository` used by `checkout.ts`: its working path. -/
structure Repository where
  path : String
  deriving DecidableEq, Repr

/-- `ICheckoutProgress`: the event shape delivered to the caller progress
callback.  In the source `kind` is always the literal string `checkout`;
we keep the field so the invariant is statable. -/
structure ICheckoutProgress where
  kind : String
  title : String
  description : Option String
  value : ℚ
  targetBranch : String
  deriving DecidableEq, Repr

/-- An output of the progress parser handed to the wiring lambda in
`checkoutBranch`: either a `progress`-kind record (with the detail text and
an overall percent) or some other kind (e.g. a `context` record). -/
inductive GitProgress where
  | progress (text : String) (percent : ℚ)
  | context (text : String)
  deriving DecidableEq, Repr

/-- Terminal outcome of the spawned subprocess: exit success, or exit
failure with an exit code and the raw stderr text. -/
inductive GitOutcome where
  | success
  | failure (exitCode : Int) (stderr : String)
  deriving DecidableEq, Repr

/-- Classified failures of the operation (spec section 7 taxonomy). -/
inductive CheckoutError where
  | authenticationError (reason : String)
  | gitCommandError (exitCode : Int) (stderr : String)
  | submoduleError
  deriving DecidableEq, Repr

/-- Observable actions of one `checkoutBranch`/`checkoutPaths` execution, in
order: an invocation of the caller progress callback, the launch of the
subprocess with its argument list and working path, and an invocation of the
submodule collaborator `initAndUpdateSubmodules`. -/
inductive Event where
  | progressDelivered (p : ICheckoutProgress)
  | processLaunched (args : List String) (path : String)
  | submoduleInvoked (path : String)
  deriving DecidableEq, Repr

/-- `getCheckoutArgs` from `checkout.ts`: the network-argument segment
(returned by the external `gitNetworkArguments`) is taken as a parameter;
then `checkout` (plus `--progress` when a callback was supplied), then the
branch-type dispatch on the trailing arguments. -/
def getCheckoutArgs (networkArguments : List String) (branch : Branch)
    (wantsProgress : Bool) : List String :=
  let baseArgs :=
    if wantsProgress then networkArguments ++ ["checkout", "--progress"]
    else networkArguments ++ ["checkout"]
  if branch.type = BranchType.Remote then
    baseArgs ++ [branch.name, "-b", branch.nameWithoutRemote, "--"]
  else
    baseArgs ++ [branch.name, "--"]

/-- `pat` matches the front of `s`, elementwise. -/
def headMatches : List Char → List Char → Bool
  | [], _ => true
  | _ :: _, [] => false
  | p :: ps, c :: cs => p == c && headMatches ps cs

/-- `pat` occurs contiguously somewhere in `s`. -/
def occursList (pat : List Char) : List Char → Bool
  | [] => headMatches pat []
  | c :: cs => headMatches pat (c :: cs) || occursList pat cs

/-- `pat` occurs as a contiguous substring of the string `s`. -/
def occursIn (pat s : String) : Bool :=
  occursList pat.toList s.toList

/-- The callback wiring installed by `executionOptionsWithProgress` in
`checkoutBranch`: each parser output of kind `progress` produces one call of
the caller callback carrying the fixed `kind`/`title`/`targetBranch`, the
detail text as `description` and the percent as `value`; outputs of any
other kind produce no call. -/
def deliveredEvents (title targetBranch : String) : List GitProgress → List Event
  | [] => []
  | GitProgress.progress text percent :: rest =>
      Event.progressDelivered ⟨"checkout", title, some text, percent, targetBranch⟩ ::
        deliveredEvents title targetBranch rest
  | GitProgress.context _ :: rest => deliveredEvents title targetBranch rest

/-- The external collaborators of one `checkoutBranch` call, fixed for the
duration of the call: the network-argument segment, the declared
authentication-error signatures (`AuthenticationErrors`), the subprocess
outcome, the sequence of parser outputs produced while it ran, the
`enableRecurseSubmodulesFlag` toggle, and the submodule-step outcome. -/
structure CheckoutEnv where
  networkArguments : List String
  authSignatures : List String
  gitOutcome : GitOutcome
  parserOutputs : List GitProgress
  recurseSubmodulesFlag : Bool
  submoduleOk : Bool

/-- Modelled from the spec: the result classification done by the external
process executor `git` (from `lib/git/core`, not part of the sources here)
when `expectedErrors = AuthenticationErrors` is passed, per spec section 4.3:
an exit failure whose stderr matches a declared authentication-error
signature fails with `AuthenticationError` carrying the matched reason; any
other exit failure fails with `GitCommandError` carrying the exit code and
the raw stderr. -/
def classifyFailure (authSignatures : List String) (exitCode : Int)
    (stderr : String) : CheckoutError :=
  match authSignatures.find? (fun s => occursIn s stderr) with
  | some sig => CheckoutError.authenticationError sig
  | none => CheckoutError.gitCommandError exitCode stderr

/-- `checkoutBranch` from `checkout.ts` as a trace semantics.  When a
callback is supplied, the execution options are extended with the progress
wiring and the initial zero-value event is delivered; then the arguments are
built (the callback presence is the `wantsProgress` flag), the subprocess is
launched, parser outputs are forwarded while it runs, its outcome is
classified, and on success the submodule cascade runs iff the feature
toggle is enabled, a cascade failure failing the whole call.  On full
success the call resolves with the sentinel `true`. -/
def checkoutBranch (env : CheckoutEnv) (repository : Repository) (branch : Branch)
    (hasCallback : Bool) : List Event × Except CheckoutError Bool :=
  let title := "Checking out branch " ++ branch.name
  let initialEvents :=
    if hasCallback then
      [Event.progressDelivered ⟨"checkout", title, none, 0, branch.name⟩]
    else []
  let parsedEvents :=
    if hasCallback then deliveredEvents title branch.name env.parserOutputs else []
  let args := getCheckoutArgs env.networkArguments branch hasCallback
  let preTrace := initialEvents ++ Event.processLaunched args repository.path :: parsedEvents
  match env.gitOutcome with
  | GitOutcome.failure code stderr =>
      (preTrace, Except.error (classifyFailure env.authSignatures code stderr))
  | GitOutcome.success =>
      if env.recurseSubmodulesFlag then
        (preTrace ++ [Event.submoduleInvoked repository.path],
          if env.submoduleOk then Except.ok true
          else Except.error CheckoutError.submoduleError)
      else
        (preTrace, Except.ok true)

/-- `checkoutPaths` from `checkout.ts`: invokes the process with exactly
`checkout HEAD -- <paths>` in the repository path; no progress wiring, no
submodule cascade, no authentication environment or expected errors, so a
raw process failure is surfaced as a plain command error. -/
def checkoutPaths (outcome : GitOutcome) (repository : Repository)
    (paths : List String) : List Event × Except CheckoutError Unit :=
  ([Event.processLaunched (["checkout", "HEAD", "--"] ++ paths) repository.path],
    match outcome with
    | GitOutcome.success => Except.ok ()
    | GitOutcome.failure code stderr =>
        Except.error (CheckoutError.gitCommandError code stderr))

/-- One raw status line of the subprocess as seen by the progress parser:
either recognized as a progress milestone (mapped to an overall fraction in
`[0,1]` by the stage tables) or not recognized. -/
inductive StatusLine where
  | recognized (text : String) (value : ℚ)
  | unrecognized (text : String)
  deriving DecidableEq, Repr

/-- Modelled from the spec: `CheckoutProgressParser` from `lib/progress`
(not part of the sources here), per spec section 4.2: a stateful single-use
line parser holding the last emitted value; unrecognized lines are silently
dropped; a recognized line emits a `progress` output whose value is clamped
to the last emitted value when the parsed value is lower, so emitted values
never regress within one invocation. -/
def parseLines : ℚ → List StatusLine → List GitProgress
  | _, [] => []
  | last, StatusLine.unrecognized _ :: rest => parseLines last rest
  | last, StatusLine.recognized text v :: rest =>
      GitProgress.progress text (max last v) :: parseLines (max last v) rest

/-- The `value` fields of the callback invocations of a trace, in order. -/
def progressValues : List Event → List ℚ
  | [] => []
  | Event.progressDelivered p :: rest => p.value :: progressValues rest
  | Event.processLaunched _ _ :: rest => progressValues rest
  | Event.submoduleInvoked _ :: rest => progressValues rest

/-- The number of callback invocations in a trace. -/
def countDelivered : List Event → Nat
  | [] => 0
  | Event.progressDelivered _ :: rest => countDelivered rest + 1
  | Event.processLaunched _ _ :: rest => countDelivered rest
  | Event.submoduleInvoked _ :: rest => countDelivered rest

/-- The number of parser outputs of kind `progress`. -/
def countProgressKind : List GitProgress → Nat
  | [] => 0
  | GitProgress.progress _ _ :: rest => countProgressKind rest + 1
  | GitProgress.context _ :: rest => countProgressKind rest

/-- The `percent` fields of the `progress`-kind parser outputs, in order. -/
def gpValues : List GitProgress → List ℚ
  | [] => []
  | GitProgress.progress _ v :: rest => v :: gpValues rest
  | GitProgress.context _ :: rest => gpValues rest

/-! ### Helper lemmas about traces -/

theorem progressValues_append (xs ys : List Event) :
    progressValues (xs ++ ys) = progressValues xs ++ progressValues ys := by
  induction xs with
  | nil => rfl
  | cons e rest ih => cases e <;> simp [progressValues, ih]

theorem progressValues_deliveredEvents (title targetBranch : String)
    (gps : List GitProgress) :
    progressValues (deliveredEvents title targetBranch gps) = gpValues gps := by
  induction gps with
  | nil => rfl
  | cons g rest ih => cases g <;> simp [deliveredEvents, gpValues, progressValues, ih]

theorem countDelivered_append (xs ys : List Event) :
    countDelivered (xs ++ ys) = countDelivered xs + countDelivered ys := by
  induction xs with
  | nil => simp [countDelivered]
  | cons e rest ih => cases e <;> simp [countDelivered, ih, Nat.add_right_comm]

theorem countDelivered_deliveredEvents (title targetBranch : String)
    (gps : List GitProgress) :
    countDelivered (deliveredEvents title targetBranch gps) = countProgressKind gps := by
  induction gps with
  | nil => rfl
  | cons g rest ih => cases g <;> simp [deliveredEvents, countDelivered, countProgressKind, ih]

theorem submoduleInvoked_notMem_deliveredEvents (title targetBranch p : String)
    (gps : List GitProgress) :
    Event.submoduleInvoked p ∉ deliveredEvents title targetBranch gps := by
  induction gps with
  | nil => simp [deliveredEvents]
  | cons g rest ih => cases g <;> simp [deliveredEvents, ih]

theorem mem_deliveredEvents_fields (title targetBranch : String)
    (gps : List GitProgress) (p : ICheckoutProgress)
    (h : Event.progressDelivered p ∈ deliveredEvents title targetBranch gps) :
    p.kind = "checkout" ∧ p.title = title ∧ p.targetBranch = targetBranch := by
  induction gps with
  | nil => simp [deliveredEvents] at h
  | cons g rest ih =>
    cases g with
    | progress text percent =>
      rcases (List.mem_cons).1 h with h1 | h2
      · cases Event.progressDelivered.inj h1
        exact ⟨rfl, rfl, rfl⟩
      · exact ih h2
    | context _ => exact ih h

/-- The emitted value sequence of the modelled parser never regresses, no
matter the starting value or the input lines. -/
theorem chain_parseLines (lines : List StatusLine) :
    ∀ last : ℚ, List.Chain' (fun a b => a ≤ b) (last :: gpValues (parseLines last lines)) := by
  induction lines with
  | nil => intro last; simp [parseLines, gpValues]
  | cons line rest ih =>
    intro last
    cases line with
    | unrecognized _ => simpa [parseLines] using ih last
    | recognized text v =>
      have h := ih (max last v)
      simp only [parseLines, gpValues]
      exact (List.chain'_cons).2 ⟨le_max_left last v, h⟩

/-- The progress values of a full `checkoutBranch` trace with a callback:
the initial zero followed by the percent of each `progress`-kind parser
output, in order. -/
theorem progressValues_checkoutBranch (env : CheckoutEnv) (repository : Repository)
    (branch : Branch) :
    progressValues (checkoutBranch env repository branch true).1 =
      0 :: gpValues env.parserOutputs := by
  rcases hg : env.gitOutcome with _ | ⟨code, stderr⟩ <;>
    rcases hf : env.recurseSubmodulesFlag <;>
      simp [checkoutBranch, hg, hf, progressValues_append, progressValues,
        progressValues_deliveredEvents]

/-! ### Claim theorems -/

/-- C1: for every branch with `type = Remote`, the argument list built by
`getCheckoutArgs` ends with `[branch.name, "-b", branch.nameWithoutRemote, "--"]`;
for every branch whose type is not `Remote` (in particular `Local`), it ends
with `[branch.name, "--"]`. -/
theorem getCheckoutArgs_trailing (networkArguments : List String) (branch : Branch)
    (wantsProgress : Bool) :
    (branch.type = BranchType.Remote →
      ∃ ys, getCheckoutArgs networkArguments branch wantsProgress =
        ys ++ [branch.name, "-b", branch.nameWithoutRemote, "--"]) ∧
    (branch.type ≠ BranchType.Remote →
      ∃ ys, getCheckoutArgs networkArguments branch wantsProgress =
        ys ++ [branch.name, "--"]) := by
  unfold getCheckoutArgs
  constructor <;> intro h
  · rw [if_pos h]; exact ⟨_, rfl⟩
  · rw [if_neg h]; exact ⟨_, rfl⟩

/-- Witness for C1 at concrete branches: the remote branch
`origin/feature-x` and the local branch `main`. -/
theorem getCheckoutArgs_trailing_witness :
    (∃ ys, getCheckoutArgs [] ⟨"origin/feature-x", BranchType.Remote, "feature-x"⟩ false =
      ys ++ ["origin/feature-x", "-b", "feature-x", "--"]) ∧
    (∃ ys, getCheckoutArgs [] ⟨"main", BranchType.Local, "main"⟩ true =
      ys ++ ["main", "--"]) :=
  ⟨(getCheckoutArgs_trailing [] ⟨"origin/feature-x", BranchType.Remote, "feature-x"⟩ false).1
      rfl,
    (getCheckoutArgs_trailing [] ⟨"main", BranchType.Local, "main"⟩ true).2 (by decide)⟩

/-- C3: `--progress` appears in the built argument list iff a progress
callback was supplied, provided the fixed network-argument segment does not
itself contain `--progress` and the branch fields are well-formed git names
(git refuses names beginning with a dash, so neither operand can be the
literal `--progress`). -/
theorem getCheckoutArgs_progressFlag_iff (networkArguments : List String)
    (branch : Branch) (wantsProgress : Bool)
    (hnet : "--progress" ∉ networkArguments)
    (hname : branch.name ≠ "--progress")
    (hnwr : branch.nameWithoutRemote ≠ "--progress") :
    "--progress" ∈ getCheckoutArgs networkArguments branch wantsProgress ↔
      wantsProgress = true := by
  unfold getCheckoutArgs
  by_cases hb : branch.type = BranchType.Remote <;>
    cases wantsProgress <;>
      simp [hb, hnet, hname, hnwr, Ne.symm hname, Ne.symm hnwr]

/-- Witness for C3 at a concrete call: local branch `main`, empty network
segment, both with and without a callback. -/
theorem getCheckoutArgs_progressFlag_iff_witness :
    ("--progress" ∈ getCheckoutArgs [] ⟨"main", BranchType.Local, "main"⟩ true ↔
      true = true) ∧
    ("--progress" ∈ getCheckoutArgs [] ⟨"main", BranchType.Local, "main"⟩ false ↔
      false = true) :=
  ⟨getCheckoutArgs_progressFlag_iff [] ⟨"main", BranchType.Local, "main"⟩ true
      (by simp) (by decide) (by decide),
    getCheckoutArgs_progressFlag_iff [] ⟨"main", BranchType.Local, "main"⟩ false
      (by simp) (by decide) (by decide)⟩

/-- C2: when a progress callback is supplied, the very first observable
event of `checkoutBranch` is the delivery of the zero-value contextual
event (no description, `value = 0`, the fixed title and target branch), and
it strictly precedes the launch of the subprocess; moreover the delivered
value sequence starts with that zero followed by the parsed values, so it
precedes every parsed progress event. -/
theorem checkoutBranch_initialEvent (env : CheckoutEnv) (repository : Repository)
    (branch : Branch) :
    (∃ rest,
      (checkoutBranch env repository branch true).1 =
        Event.progressDelivered
            ⟨"checkout", "Checking out branch " ++ branch.name, none, 0, branch.name⟩ ::
          Event.processLaunched
              (getCheckoutArgs env.networkArguments branch true) repository.path ::
            rest) ∧
      progressValues (checkoutBranch env repository branch true).1 =
        0 :: gpValues env.parserOutputs := by
  refine ⟨?_, progressValues_checkoutBranch env repository branch⟩
  unfold checkoutBranch
  cases env.gitOutcome with
  | failure code stderr => exact ⟨_, rfl⟩
  | success =>
    cases hf : env.recurseSubmodulesFlag
    · simp only [hf, if_true, if_false, Bool.false_eq_true]
      exact ⟨_, rfl⟩
    · simp only [hf, if_true]
      refine ⟨deliveredEvents ("Checking out branch " ++ branch.name) branch.name
          env.parserOutputs ++ [Event.submoduleInvoked repository.path], ?_⟩
      simp

/-- C5: in every execution of `checkoutBranch`, the submodule collaborator
is invoked iff the recurse-submodules feature toggle is enabled and the
checkout subprocess succeeded; it is never invoked on a disabled toggle or
a failed checkout. -/
theorem checkoutBranch_submodule_iff (env : CheckoutEnv) (repository : Repository)
    (branch : Branch) (hasCallback : Bool) :
    Event.submoduleInvoked repository.path ∈
        (checkoutBranch env repository branch hasCallback).1 ↔
      env.recurseSubmodulesFlag = true ∧ env.gitOutcome = GitOutcome.success := by
  rcases hg : env.gitOutcome with _ | ⟨code, stderr⟩ <;>
    rcases hf : env.recurseSubmodulesFlag <;>
      cases hasCallback <;>
        simp [checkoutBranch, hg, hf, submoduleInvoked_notMem_deliveredEvents]

/-- C4: when the checkout subprocess succeeds, the cascade toggle is
enabled, and the submodule step fails, `checkoutBranch` resolves as the
cascade failure, not as success. -/
theorem checkoutBranch_cascadeFailure (env : CheckoutEnv) (repository : Repository)
    (branch : Branch) (hasCallback : Bool)
    (h1 : env.gitOutcome = GitOutcome.success)
    (h2 : env.recurseSubmodulesFlag = true)
    (h3 : env.submoduleOk = false) :
    (checkoutBranch env repository branch hasCallback).2 =
      Except.error CheckoutError.submoduleError := by
  simp [checkoutBranch, h1, h2, h3]

/-- Witness for C4: a concrete run with a successful checkout, the toggle
on and a failing submodule step resolves as the cascade failure. -/
theorem checkoutBranch_cascadeFailure_witness :
    (checkoutBranch ⟨[], [], GitOutcome.success, [], true, false⟩ ⟨"/repo"⟩
        ⟨"main", BranchType.Local, "main"⟩ true).2 =
      Except.error CheckoutError.submoduleError :=
  checkoutBranch_cascadeFailure ⟨[], [], GitOutcome.success, [], true, false⟩ ⟨"/repo"⟩
    ⟨"main", BranchType.Local, "main"⟩ true rfl rfl rfl

/-- C9: when the subprocess succeeds and the cascade (if enabled) succeeds,
`checkoutBranch` resolves with the sentinel `true` (an `Except.ok` value,
distinguishable from the absence of a value). -/
theorem checkoutBranch_successSentinel (env : CheckoutEnv) (repository : Repository)
    (branch : Branch) (hasCallback : Bool)
    (h1 : env.gitOutcome = GitOutcome.success)
    (h2 : env.recurseSubmodulesFlag = true → env.submoduleOk = true) :
    (checkoutBranch env repository branch hasCallback).2 = Except.ok true := by
  cases hf : env.recurseSubmodulesFlag
  · simp [checkoutBranch, h1, hf]
  · simp [checkoutBranch, h1, hf, h2 hf]

/-- Witness for C9: a concrete fully-successful run (toggle on, submodule
step succeeding) resolves with `Except.ok true`. -/
theorem checkoutBranch_successSentinel_witness :
    (checkoutBranch ⟨[], [], GitOutcome.success, [], true, true⟩ ⟨"/repo"⟩
        ⟨"main", BranchType.Local, "main"⟩ false).2 = Except.ok true :=
  checkoutBranch_successSentinel ⟨[], [], GitOutcome.success, [], true, true⟩ ⟨"/repo"⟩
    ⟨"main", BranchType.Local, "main"⟩ false rfl (fun _ => rfl)

/-- C10: with a progress callback supplied, every event delivered to the
callback carries kind `checkout`, the fixed title
`Checking out branch <name>` and `targetBranch = branch.name`; and the
number of callback invocations is exactly one (the initial event) plus the
number of parser outputs of kind `progress`, so non-`progress` parser
outputs never trigger the callback. -/
theorem checkoutBranch_eventShape (env : CheckoutEnv) (repository : Repository)
    (branch : Branch) :
    (∀ p : ICheckoutProgress,
        Event.progressDelivered p ∈ (checkoutBranch env repository branch true).1 →
          p.kind = "checkout" ∧ p.title = "Checking out branch " ++ branch.name ∧
            p.targetBranch = branch.name) ∧
      countDelivered (checkoutBranch env repository branch true).1 =
        countProgressKind env.parserOutputs + 1 := by
  constructor
  · intro p hp
    rcases hg : env.gitOutcome with _ | ⟨code, stderr⟩ <;>
      rcases hf : env.recurseSubmodulesFlag <;>
        simp [checkoutBranch, hg, hf] at hp <;>
          rcases hp with rfl | hp <;>
            first
              | exact ⟨rfl, rfl, rfl⟩
              | exact mem_deliveredEvents_fields _ _ _ _ hp
  · rcases hg : env.gitOutcome with _ | ⟨code, stderr⟩ <;>
      rcases hf : env.recurseSubmodulesFlag <;>
        simp [checkoutBranch, hg, hf, countDelivered_append, countDelivered,
          countDelivered_deliveredEvents, Nat.add_comm]

/-- Witness for C10: concrete run with one `progress` and one `context`
parser output; the initial event's fields satisfy the shape invariant and
the callback fires exactly twice. -/
theorem checkoutBranch_eventShape_witness :
    (ICheckoutProgress.mk "checkout" ("Checking out branch " ++ "main") none 0 "main").kind
        = "checkout" ∧
      countDelivered
          (checkoutBranch
              ⟨[], [], GitOutcome.success,
                [GitProgress.progress "Checking out files" (1/2),
                  GitProgress.context "remote"], false, true⟩
            ⟨"/repo"⟩ ⟨"main", BranchType.Local, "main"⟩ true).1 = 2 :=
  ⟨((checkoutBranch_eventShape
        ⟨[], [], GitOutcome.success,
          [GitProgress.progress "Checking out files" (1/2),
            GitProgress.context "remote"], false, true⟩
        ⟨"/repo"⟩ ⟨"main", BranchType.Local, "main"⟩).1
      ⟨"checkout", "Checking out branch " ++ "main", none, 0, "main"⟩
      (by simp [checkoutBranch])).1,
    (checkoutBranch_eventShape
        ⟨[], [], GitOutcome.success,
          [GitProgress.progress "Checking out files" (1/2),
            GitProgress.context "remote"], false, true⟩
        ⟨"/repo"⟩ ⟨"main", BranchType.Local, "main"⟩).2⟩

/-- C6: on subprocess exit failure, if the stderr matches one of the
declared authentication-error signatures the call fails with
`AuthenticationError` carrying the matched signature; otherwise it fails
with `GitCommandError` carrying the exit code and the raw stderr. -/
theorem checkoutBranch_failureClassification (env : CheckoutEnv)
    (repository : Repository) (branch : Branch) (hasCallback : Bool)
    (code : Int) (stderr : String)
    (h : env.gitOutcome = GitOutcome.failure code stderr) :
    ((∃ sig ∈ env.authSignatures, occursIn sig stderr = true) →
      ∃ sig, sig ∈ env.authSignatures ∧ occursIn sig stderr = true ∧
        (checkoutBranch env repository branch hasCallback).2 =
          Except.error (CheckoutError.authenticationError sig)) ∧
    ((∀ sig ∈ env.authSignatures, occursIn sig stderr = false) →
      (checkoutBranch env repository branch hasCallback).2 =
        Except.error (CheckoutError.gitCommandError code stderr)) := by
  have hres : (checkoutBranch env repository branch hasCallback).2 =
      Except.error (classifyFailure env.authSignatures code stderr) := by
    cases hasCallback <;> simp [checkoutBranch, h]
  constructor
  · intro hex
    rcases ho : env.authSignatures.find? (fun s => occursIn s stderr) with _ | sig
    · rw [List.find?_eq_none] at ho
      rcases hex with ⟨sig, hmem, hox⟩
      exact absurd hox (by simpa using ho sig hmem)
    · have hps := List.find?_some ho
      refine ⟨sig, List.mem_of_find?_eq_some ho, hps, ?_⟩
      rw [hres]
      simp [classifyFailure, ho]
  · intro hall
    have hnone : env.authSignatures.find? (fun s => occursIn s stderr) = none := by
      rw [List.find?_eq_none]
      intro x hx
      simp [hall x hx]
    rw [hres]
    simp [classifyFailure, hnone]

/-- Witness for C6: a failure with stderr containing the declared signature
`Permission denied (publickey)` classifies as an authentication error, and
a failure with an unrelated stderr classifies as a plain command error. -/
theorem checkoutBranch_failureClassification_witness :
    (∃ sig, sig ∈ ["Permission denied (publickey)"] ∧
        occursIn sig "fatal: Permission denied (publickey)" = true ∧
        (checkoutBranch
            ⟨[], ["Permission denied (publickey)"],
              GitOutcome.failure 128 "fatal: Permission denied (publickey)", [], false, true⟩
            ⟨"/repo"⟩ ⟨"main", BranchType.Local, "main"⟩ false).2 =
          Except.error (CheckoutError.authenticationError sig)) ∧
      (checkoutBranch
          ⟨[], ["Permission denied (publickey)"],
            GitOutcome.failure 1 "error: pathspec did not match", [], false, true⟩
          ⟨"/repo"⟩ ⟨"main", BranchType.Local, "main"⟩ false).2 =
        Except.error (CheckoutError.gitCommandError 1 "error: pathspec did not match") :=
  ⟨(checkoutBranch_failureClassification
        ⟨[], ["Permission denied (publickey)"],
          GitOutcome.failure 128 "fatal: Permission denied (publickey)", [], false, true⟩
        ⟨"/repo"⟩ ⟨"main", BranchType.Local, "main"⟩ false 128
        "fatal: Permission denied (publickey)" rfl).1
      ⟨"Permission denied (publickey)", by simp, by decide⟩,
    (checkoutBranch_failureClassification
        ⟨[], ["Permission denied (publickey)"],
          GitOutcome.failure 1 "error: pathspec did not match", [], false, true⟩
        ⟨"/repo"⟩ ⟨"main", BranchType.Local, "main"⟩ false 1
        "error: pathspec did not match" rfl).2
      (by intro sig hsig; rw [List.mem_singleton] at hsig; subst hsig; decide)⟩

/-- C7: when the parser outputs come from the modelled progress parser, the
sequence of `value`s delivered to the callback within one `checkoutBranch`
invocation is non-decreasing; and a parsed value lower than the last
emitted value is clamped to the last emitted value. -/
theorem checkoutBranch_monotoneProgress (env : CheckoutEnv) (repository : Repository)
    (branch : Branch) (lines : List StatusLine)
    (h : env.parserOutputs = parseLines 0 lines) :
    List.Chain' (fun a b => a ≤ b)
        (progressValues (checkoutBranch env repository branch true).1) ∧
      ∀ (last : ℚ) (text : String) (v : ℚ) (rest : List StatusLine), v < last →
        parseLines last (StatusLine.recognized text v :: rest) =
          GitProgress.progress text last :: parseLines last rest := by
  constructor
  · rw [progressValues_checkoutBranch, h]
    exact chain_parseLines lines 0
  · intro last text v rest hv
    simp [parseLines, max_eq_left hv.le]

/-- Witness for C7: a concrete run whose parser sees values 1/2 then 1/4
(an out-of-order line) yields a non-decreasing delivered sequence, and the
clamp rewrites a regressing line to the last emitted value. -/
theorem checkoutBranch_monotoneProgress_witness :
    List.Chain' (fun a b => a ≤ b)
        (progressValues
          (checkoutBranch
              ⟨[], [], GitOutcome.success,
                parseLines 0
                  [StatusLine.recognized "Checking out files" (1/2),
                    StatusLine.unrecognized "chatter",
                    StatusLine.recognized "Checking out files" (1/4)], false, true⟩
              ⟨"/repo"⟩ ⟨"main", BranchType.Local, "main"⟩ true).1) ∧
      parseLines 1 [StatusLine.recognized "late line" (1/2)] =
        [GitProgress.progress "late line" 1] := by
  constructor
  · exact (checkoutBranch_monotoneProgress
        ⟨[], [], GitOutcome.success,
          parseLines 0
            [StatusLine.recognized "Checking out files" (1/2),
              StatusLine.unrecognized "chatter",
              StatusLine.recognized "Checking out files" (1/4)], false, true⟩
        ⟨"/repo"⟩ ⟨"main", BranchType.Local, "main"⟩
        [StatusLine.recognized "Checking out files" (1/2),
          StatusLine.unrecognized "chatter",
          StatusLine.recognized "Checking out files" (1/4)] rfl).1
  · have hc := (checkoutBranch_monotoneProgress
        ⟨[], [], GitOutcome.success, parseLines 0 [], false, true⟩
        ⟨"/repo"⟩ ⟨"main", BranchType.Local, "main"⟩ [] rfl).2
        1 "late line" (1/2) [] (by norm_num)
    simpa [parseLines] using hc

/-- C8: `checkoutPaths` launches the process with exactly
`checkout HEAD -- <paths>` in the repository path; it delivers no progress
event and never invokes the submodule collaborator; it succeeds on exit
success and fails with a plain command error (never an authentication
error) on exit failure. -/
theorem checkoutPaths_spec (outcome : GitOutcome) (repository : Repository)
    (paths : List String) :
    (checkoutPaths outcome repository paths).1 =
        [Event.processLaunched (["checkout", "HEAD", "--"] ++ paths) repository.path] ∧
      countDelivered (checkoutPaths outcome repository paths).1 = 0 ∧
      Event.submoduleInvoked repository.path ∉ (checkoutPaths outcome repository paths).1 ∧
      (outcome = GitOutcome.success →
        (checkoutPaths outcome repository paths).2 = Except.ok ()) ∧
      (∀ (code : Int) (stderr : String), outcome = GitOutcome.failure code stderr →
        (checkoutPaths outcome repository paths).2 =
          Except.error (CheckoutError.gitCommandError code stderr)) ∧
      ∀ reason : String,
        (checkoutPaths outcome repository paths).2 ≠
          Except.error (CheckoutError.authenticationError reason) := by
  refine ⟨rfl, rfl, by simp [checkoutPaths], ?_, ?_, ?_⟩
  · intro hs
    simp [checkoutPaths, hs]
  · intro code stderr hf
    simp [checkoutPaths, hf]
  · intro reason
    cases outcome <;> simp [checkoutPaths]

/-- Witness for C8 at the spec scenario: two paths, exit success. -/
theorem checkoutPaths_spec_witness :
    (checkoutPaths GitOutcome.success ⟨"/repo"⟩ ["a.txt", "b/c.txt"]).1 =
        [Event.processLaunched ["checkout", "HEAD", "--", "a.txt", "b/c.txt"] "/repo"] ∧
      (checkoutPaths GitOutcome.success ⟨"/repo"⟩ ["a.txt", "b/c.txt"]).2 =
        Except.ok () :=
  ⟨(checkoutPaths_spec GitOutcome.success ⟨"/repo"⟩ ["a.txt", "b/c.txt"]).1,
    (checkoutPaths_spec GitOutcome.success ⟨"/repo"⟩ ["a.txt", "b/c.txt"]).2.2.2.1 rfl⟩

end Checkout
